import Mathlib

/-!
Verification of the cron expression core (`cronUtils` in
`cron-expression-builder.tsx`): `parseExpression`, `generateExpression` and
`humanReadable`.  The embedding follows the JavaScript runtime semantics of
the source: `String.prototype.split` with a one-character separator,
`parseInt` (whose NaN result is modelled as `none`), template-literal
rendering of `undefined` and `NaN`, `Array.prototype.join` (which renders
`undefined` elements as the empty string), falsy-defaulting `x || d`, and
out-of-range array indexing returning `undefined`.
-/

namespace AceCron

/-- JS number as it occurs in this program: an integer value, or `none` for `NaN`. -/
abbrev JSNum := Option Int

/-- The `CronConfig` record of the source.  At the JavaScript runtime the
`type` discriminant is a plain string, so it is modelled as `String`; the
four optional fields are `Option`s. -/
structure CronConfig where
  type : String
  time : Option String := none
  days : Option (List JSNum) := none
  day : Option JSNum := none
  expression : Option String := none
deriving DecidableEq

/-- JS `String.prototype.split` with a one-character separator, on the
character list: consecutive separators and leading/trailing separators
produce empty pieces, and the empty string splits to one empty piece. -/
def splitOnSep (sep : Char) : List Char → List (List Char)
  | [] => [[]]
  | c :: cs =>
    match splitOnSep sep cs with
    | [] => [[]]
    | t :: ts => if c = sep then [] :: t :: ts else (c :: t) :: ts

/-- JS `s.split(sep)` for a one-character separator, as used by the source
(`cron.split(' ')`, `weekday.split(',')`, `time.split(':')`). -/
def jsSplit (sep : Char) (s : String) : List String :=
  (splitOnSep sep s.data).map String.mk

/-- JS `s.padStart(2, '0')`: prepend zeros up to length two. -/
def padStart2 (s : String) : String :=
  String.mk (List.replicate (2 - s.length) '0') ++ s

/-- Value of a list of decimal digit characters. -/
def digitsVal (cs : List Char) : Nat :=
  cs.foldl (fun a c => a * 10 + (c.toNat - 48)) 0

/-- JS `parseInt` without an explicit radix, in its decimal mode: skip
leading whitespace, an optional sign, then the longest run of decimal
digits; `none` models the `NaN` result when no digit follows.  (The `0x`
hexadecimal auto-detection of `parseInt` is not modelled; no input
considered here triggers it.) -/
def parseIntJS (s : String) : JSNum :=
  match s.data.dropWhile Char.isWhitespace with
  | '-' :: rest =>
    let ds := rest.takeWhile Char.isDigit
    if ds = [] then none else some (-(digitsVal ds : Int))
  | '+' :: rest =>
    let ds := rest.takeWhile Char.isDigit
    if ds = [] then none else some ((digitsVal ds : Int))
  | cs =>
    let ds := cs.takeWhile Char.isDigit
    if ds = [] then none else some ((digitsVal ds : Int))

/-- Decimal digit character. -/
def digitChar (n : Nat) : Char := Char.ofNat (48 + n)

/-- Digits of `n` in reverse order, fuelled so the definition is structural. -/
def toDigitsRev : Nat → Nat → List Char
  | 0, _ => []
  | fuel + 1, n => if n = 0 then [] else digitChar (n % 10) :: toDigitsRev fuel (n / 10)

/-- Decimal rendering of a natural number, as JS `Number.prototype.toString`
produces for non-negative integer values. -/
def natRepr (n : Nat) : String :=
  if n = 0 then "0" else String.mk (toDigitsRev (n + 1) n).reverse

/-- Decimal rendering of an integer, as JS renders integer numbers. -/
def intRepr : Int → String
  | Int.ofNat n => natRepr n
  | Int.negSucc n => "-" ++ natRepr (n + 1)

/-- Template-literal rendering of a JS number: `NaN` renders as `"NaN"`. -/
def jsNumRender : JSNum → String
  | none => "NaN"
  | some i => intRepr i

/-- Template-literal rendering of a possibly-undefined JS number:
`undefined` renders as `"undefined"`. -/
def renderOptNum : Option JSNum → String
  | none => "undefined"
  | some j => jsNumRender j

/-- Template-literal rendering of a possibly-undefined JS string. -/
def renderOptStr : Option String → String
  | none => "undefined"
  | some s => s

/-- JS `x || d` for an optional string `x`: `undefined` and the empty
string (the falsy string) both fall back to the default. -/
def jsOrStr (o : Option String) (d : String) : String :=
  match o with
  | none => d
  | some s => if s = "" then d else s

/-- JS `x || d` for an optional number `x`: `undefined`, `NaN` and `0` are
falsy and fall back to the default. -/
def jsOrNum (o : Option JSNum) (d : Int) : JSNum :=
  match o with
  | none => some d
  | some none => some d
  | some (some n) => if n = 0 then some d else some n

/-- JS `x || []` for an optional array. -/
def jsOrList (o : Option (List JSNum)) : List JSNum :=
  o.getD []

/-- Interleave a separator between the pieces, as JS `Array.prototype.join`
does once each element is rendered. -/
def joinSep (sep : String) : List String → String
  | [] => ""
  | [x] => x
  | x :: y :: xs => x ++ sep ++ joinSep sep (y :: xs)

/-- JS `numbers.join(sep)`: every element rendered as a number, `NaN`
included. -/
def jsJoinNums (sep : String) (l : List JSNum) : String :=
  joinSep sep (l.map jsNumRender)

/-- JS `strings.join(sep)` where elements may be `undefined`:
`Array.prototype.join` renders `undefined` elements as the empty string. -/
def jsJoinOptStr (sep : String) (l : List (Option String)) : String :=
  joinSep sep (l.map (fun o => o.getD ""))

/-- JS array indexing `l[d]` by a JS number: `NaN`, negative and
out-of-range indices give `undefined`. -/
def jsIndex (l : List String) (d : JSNum) : Option String :=
  match d with
  | none => none
  | some k => if 0 ≤ k then l[k.toNat]? else none

/-- Body of `parseExpression` once the five fields are in hand: the
classification if-chain of the source, in its order.  `cron` is the whole
input, kept for the `custom` fall-through. -/
def classifyFields (cron minute hour day month weekday : String) : CronConfig :=
  if minute = "0" ∧ hour = "0" ∧ day = "*" ∧ month = "*" ∧ weekday = "*" then
    { type := "daily", time := some "00:00" }
  else if minute ≠ "*" ∧ hour ≠ "*" ∧ day = "*" ∧ month = "*" ∧ weekday = "*" then
    { type := "daily",
      time := some (padStart2 hour ++ ":" ++ padStart2 minute) }
  else if minute ≠ "*" ∧ hour ≠ "*" ∧ day = "*" ∧ month = "*" ∧ weekday ≠ "*" then
    { type := "weekly",
      time := some (padStart2 hour ++ ":" ++ padStart2 minute),
      days := some ((jsSplit ',' weekday).map parseIntJS) }
  else if minute ≠ "*" ∧ hour ≠ "*" ∧ day ≠ "*" ∧ month = "*" ∧ weekday = "*" then
    { type := "monthly",
      time := some (padStart2 hour ++ ":" ++ padStart2 minute),
      day := some (parseIntJS day) }
  else
    { type := "custom", expression := some cron }

/-- `cronUtils.parseExpression`: split on the space character, fail unless
there are exactly five parts, then classify. -/
def parseExpression (cron : String) : Option CronConfig :=
  match jsSplit ' ' cron with
  | [minute, hour, day, month, weekday] =>
    some (classifyFields cron minute hour day month weekday)
  | _ => none

/-- `cronUtils.generateExpression`: render a config as a cron string,
defaulting missing fields and never failing. -/
def generateExpression (config : CronConfig) : String :=
  let time := jsOrStr config.time "00:00"
  let nums := (jsSplit ':' time).map parseIntJS
  let hour := nums[0]?
  let minute := nums[1]?
  if config.type = "daily" then
    renderOptNum minute ++ " " ++ renderOptNum hour ++ " * * *"
  else if config.type = "weekly" then
    renderOptNum minute ++ " " ++ renderOptNum hour ++ " * * " ++
      jsJoinNums "," (jsOrList config.days)
  else if config.type = "monthly" then
    renderOptNum minute ++ " " ++ renderOptNum hour ++ " " ++
      jsNumRender (jsOrNum config.day 1) ++ " * *"
  else if config.type = "custom" then
    jsOrStr config.expression "0 0 * * *"
  else
    "0 0 * * *"

/-- The weekday names used by `humanReadable`. -/
def dayNames : List String :=
  ["Sunday", "Monday", "Tuesday", "Wednesday", "Thursday", "Friday", "Saturday"]

/-- The ordinal suffix computed by `humanReadable`'s monthly branch:
`config.day === 1 ? 'st' : config.day === 2 ? 'nd' : config.day === 3 ? 'rd' : 'th'`. -/
def ordinalSuffix (d : Option JSNum) : String :=
  if d = some (some 1) then "st"
  else if d = some (some 2) then "nd"
  else if d = some (some 3) then "rd"
  else "th"

/-- `cronUtils.humanReadable`: parse, then render per kind. -/
def humanReadable (cron : String) : String :=
  match parseExpression cron with
  | none => "Invalid cron expression"
  | some config =>
    if config.type = "daily" then
      "Daily at " ++ renderOptStr config.time
    else if config.type = "weekly" then
      "Weekly on " ++
        jsJoinOptStr ", " ((jsOrList config.days).map (jsIndex dayNames)) ++
        " at " ++ renderOptStr config.time
    else if config.type = "monthly" then
      "Monthly on the " ++ renderOptNum config.day ++ ordinalSuffix config.day ++
        " at " ++ renderOptStr config.time
    else if config.type = "custom" then
      "Custom: " ++ renderOptStr config.expression
    else
      "Invalid schedule"

/-- Zero-padded `HH:MM` rendering of an hour and minute, used to state the
validity hypotheses of the round-trip claims. -/
def fmtTime (h m : Nat) : String :=
  padStart2 (natRepr h) ++ ":" ++ padStart2 (natRepr m)

/-- Splitter on a character predicate, used to state what the spec calls
whitespace-separated fields. -/
def splitWhen (p : Char → Bool) : List Char → List (List Char)
  | [] => [[]]
  | c :: cs =>
    match splitWhen p cs with
    | [] => [[]]
    | t :: ts => if p c then [] :: t :: ts else (c :: t) :: ts

/-- Follows the spec's words: the whitespace-separated fields of a string,
i.e. its maximal runs of non-whitespace characters. -/
def whitespaceFields (s : String) : List String :=
  ((splitWhen Char.isWhitespace s.data).filter (· ≠ [])).map String.mk

/-- Classification with the special-case first rule of the source removed,
so that `0 0 * * *` is handled by the general concrete-minute/hour rule;
the remaining branches are verbatim those of `classifyFields`. -/
def classifyFieldsMerged (cron minute hour day month weekday : String) : CronConfig :=
  if minute ≠ "*" ∧ hour ≠ "*" ∧ day = "*" ∧ month = "*" ∧ weekday = "*" then
    { type := "daily",
      time := some (padStart2 hour ++ ":" ++ padStart2 minute) }
  else if minute ≠ "*" ∧ hour ≠ "*" ∧ day = "*" ∧ month = "*" ∧ weekday ≠ "*" then
    { type := "weekly",
      time := some (padStart2 hour ++ ":" ++ padStart2 minute),
      days := some ((jsSplit ',' weekday).map parseIntJS) }
  else if minute ≠ "*" ∧ hour ≠ "*" ∧ day ≠ "*" ∧ month = "*" ∧ weekday = "*" then
    { type := "monthly",
      time := some (padStart2 hour ++ ":" ++ padStart2 minute),
      day := some (parseIntJS day) }
  else
    { type := "custom", expression := some cron }

/-- The variant parser of the spec's note: `parseExpression` with the
`0 0 * * *` special-case branch removed. -/
def parseExpressionMerged (cron : String) : Option CronConfig :=
  match jsSplit ' ' cron with
  | [minute, hour, day, month, weekday] =>
    some (classifyFieldsMerged cron minute hour day month weekday)
  | _ => none

theorem data_append (a b : String) : (a ++ b).data = a.data ++ b.data := rfl

theorem mk_data (s : String) : String.mk s.data = s := rfl

theorem data_space : (" " : String).data = [' '] := rfl

theorem data_comma : ("," : String).data = [','] := rfl

theorem data_colon : (":" : String).data = [':'] := rfl

theorem data_tail_daily : (" * * *" : String).data = [' ', '*', ' ', '*', ' ', '*'] := rfl

theorem data_tail_monthly : (" * *" : String).data = [' ', '*', ' ', '*'] := rfl

theorem data_mid_weekly : (" * * " : String).data = [' ', '*', ' ', '*', ' '] := rfl

theorem splitOnSep_ne_nil (sep : Char) (cs : List Char) : splitOnSep sep cs ≠ [] := by
  induction cs with
  | nil => simp [splitOnSep]
  | cons c cs ih =>
    simp only [splitOnSep]
    cases h : splitOnSep sep cs with
    | nil => simp
    | cons t ts => by_cases hc : c = sep <;> simp [hc]

theorem splitOnSep_no_sep (sep : Char) (cs : List Char) (h : sep ∉ cs) :
    splitOnSep sep cs = [cs] := by
  induction cs with
  | nil => rfl
  | cons c cs ih =>
    simp only [List.mem_cons, not_or] at h
    simp only [splitOnSep, ih h.2]
    rw [if_neg (fun hc => h.1 hc.symm)]

theorem splitOnSep_append (sep : Char) (xs ys : List Char) (h : sep ∉ xs) :
    splitOnSep sep (xs ++ sep :: ys) = xs :: splitOnSep sep ys := by
  induction xs with
  | nil =>
    simp only [List.nil_append, splitOnSep]
    cases hy : splitOnSep sep ys with
    | nil => exact absurd hy (splitOnSep_ne_nil sep ys)
    | cons t ts => simp
  | cons x xs ih =>
    simp only [List.mem_cons, not_or] at h
    simp only [List.cons_append, splitOnSep, List.append_eq, ih h.2]
    rw [if_neg (fun hc => h.1 hc.symm)]

theorem append_head (p t : String) (c : Char) (hp : p.data.head? = some c) :
    (p ++ t).data.head? = some c := by
  rw [data_append]
  cases hpd : p.data with
  | nil => rw [hpd] at hp; cases hp
  | cons x xs =>
    rw [hpd] at hp
    simp only [List.head?] at hp
    simpa using hp

theorem ne_of_head (s₁ s₂ : String) (c d : Char) (h₁ : s₁.data.head? = some c)
    (h₂ : s₂.data.head? = some d) (hcd : c ≠ d) : s₁ ≠ s₂ := by
  intro he
  rw [he, h₂] at h₁
  exact hcd (Option.some.inj h₁).symm

theorem ne_star (s : String) (h : '*' ∉ s.data) : s ≠ "*" := by
  intro he
  rw [he] at h
  exact h (by decide)

theorem jsSplit_colon (a b : String) (ha : ':' ∉ a.data) (hb : ':' ∉ b.data) :
    jsSplit ':' (a ++ ":" ++ b) = [a, b] := by
  have hd : (a ++ ":" ++ b).data = a.data ++ ':' :: b.data := by
    simp only [data_append, data_colon, List.append_assoc, List.cons_append,
      List.nil_append]
  unfold jsSplit
  rw [hd, splitOnSep_append ':' _ _ ha, splitOnSep_no_sep ':' _ hb]
  simp [mk_data]

theorem jsSplit_shape_daily (a b : String) (ha : ' ' ∉ a.data) (hb : ' ' ∉ b.data) :
    jsSplit ' ' (a ++ " " ++ b ++ " * * *") = [a, b, "*", "*", "*"] := by
  have hd : (a ++ " " ++ b ++ " * * *").data
      = a.data ++ ' ' :: (b.data ++ ' ' :: ['*', ' ', '*', ' ', '*']) := by
    simp only [data_append, data_space, data_tail_daily, List.append_assoc,
      List.cons_append, List.nil_append]
  unfold jsSplit
  rw [hd, splitOnSep_append ' ' _ _ ha, splitOnSep_append ' ' _ _ hb]
  simp [mk_data, splitOnSep]

theorem jsSplit_shape_monthly (a b c : String) (ha : ' ' ∉ a.data)
    (hb : ' ' ∉ b.data) (hc : ' ' ∉ c.data) :
    jsSplit ' ' (a ++ " " ++ b ++ " " ++ c ++ " * *") = [a, b, c, "*", "*"] := by
  have hd : (a ++ " " ++ b ++ " " ++ c ++ " * *").data
      = a.data ++ ' ' :: (b.data ++ ' ' :: (c.data ++ ' ' :: ['*', ' ', '*'])) := by
    simp only [data_append, data_space, data_tail_monthly, List.append_assoc,
      List.cons_append, List.nil_append]
  unfold jsSplit
  rw [hd, splitOnSep_append ' ' _ _ ha, splitOnSep_append ' ' _ _ hb,
    splitOnSep_append ' ' _ _ hc]
  simp [mk_data, splitOnSep]

theorem jsSplit_shape_weekly (a b w : String) (ha : ' ' ∉ a.data)
    (hb : ' ' ∉ b.data) (hw : ' ' ∉ w.data) :
    jsSplit ' ' (a ++ " " ++ b ++ " * * " ++ w) = [a, b, "*", "*", w] := by
  have hd : (a ++ " " ++ b ++ " * * " ++ w).data
      = a.data ++ ' ' :: (b.data ++ ' ' :: ('*' :: ' ' :: '*' :: ' ' :: w.data)) := by
    simp only [data_append, data_space, data_mid_weekly, List.append_assoc,
      List.cons_append, List.nil_append]
  unfold jsSplit
  rw [hd, splitOnSep_append ' ' _ _ ha, splitOnSep_append ' ' _ _ hb]
  have h1 : splitOnSep ' ' ('*' :: ' ' :: '*' :: ' ' :: w.data)
      = ['*'] :: ['*'] :: splitOnSep ' ' w.data := by
    have := splitOnSep_append ' ' ['*'] ('*' :: ' ' :: w.data) (by decide)
    simp only [List.cons_append, List.nil_append] at this
    rw [this]
    have := splitOnSep_append ' ' ['*'] w.data (by decide)
    simp only [List.cons_append, List.nil_append] at this
    rw [this]
  rw [h1, splitOnSep_no_sep ' ' _ hw]
  simp [mk_data]

theorem reprFacts : ∀ n : Nat, n < 60 →
    (' ' ∉ (natRepr n).data ∧ '*' ∉ (natRepr n).data ∧ ',' ∉ (natRepr n).data ∧
     natRepr n ≠ "*" ∧ natRepr n ≠ "" ∧ (natRepr n = "0" ↔ n = 0) ∧
     parseIntJS (natRepr n) = some (n : Int) ∧
     parseIntJS (padStart2 (natRepr n)) = some (n : Int) ∧
     ':' ∉ (padStart2 (natRepr n)).data) := by decide

theorem fmtTimeFacts : ∀ h : Nat, h < 24 → ∀ m : Nat, m < 60 →
    (fmtTime h m ≠ "" ∧
     jsSplit ':' (fmtTime h m) = [padStart2 (natRepr h), padStart2 (natRepr m)]) := by
  intro h hh m hm
  have fh := reprFacts h (by omega)
  have fm := reprFacts m (by omega)
  constructor
  · intro he
    have : (fmtTime h m).data = [] := by rw [he]
    rw [fmtTime] at this
    simp only [data_append, data_colon, List.append_assoc, List.cons_append,
      List.nil_append] at this
    simp at this
  · exact jsSplit_colon _ _ fh.2.2.2.2.2.2.2.2 fm.2.2.2.2.2.2.2.2

theorem join_not_mem (sep : String) (c : Char) (ts : List String)
    (hc : c ∉ sep.data) (h : ∀ t ∈ ts, c ∉ t.data) :
    c ∉ (joinSep sep ts).data := by
  induction ts with
  | nil => simp [joinSep]
  | cons x xs ih =>
    cases xs with
    | nil =>
      simp only [joinSep]
      exact h x (by simp)
    | cons y ys =>
      simp only [joinSep, data_append, List.mem_append, not_or]
      exact ⟨⟨h x (by simp), hc⟩, ih (fun t ht => h t (by simp [ht]))⟩

theorem splitOnSep_join (ts : List String) (hne : ts ≠ [])
    (h : ∀ t ∈ ts, ',' ∉ t.data) :
    splitOnSep ',' (joinSep "," ts).data = ts.map String.data := by
  induction ts with
  | nil => cases hne rfl
  | cons x xs ih =>
    cases xs with
    | nil =>
      simp only [joinSep, List.map]
      exact splitOnSep_no_sep ',' x.data (h x (by simp))
    | cons y ys =>
      have hx : ',' ∉ x.data := h x (by simp)
      have hd : (x ++ "," ++ joinSep "," (y :: ys)).data
          = x.data ++ ',' :: (joinSep "," (y :: ys)).data := by
        simp only [data_append, data_comma, List.append_assoc, List.cons_append,
          List.nil_append]
      simp only [joinSep, hd, splitOnSep_append ',' _ _ hx, List.map]
      rw [ih (by simp) (fun t ht => h t (by simp [ht]))]
      simp [List.map]

theorem jsSplit_join (ts : List String) (hne : ts ≠ [])
    (h : ∀ t ∈ ts, ',' ∉ t.data) :
    jsSplit ',' (joinSep "," ts) = ts := by
  unfold jsSplit
  rw [splitOnSep_join ts hne h, List.map_map]
  have : ∀ t ∈ ts, (String.mk ∘ String.data) t = id t := fun t _ => mk_data t
  rw [List.map_congr_left this, List.map_id]

theorem parse_of_five (s mi ho da mo wd : String)
    (h : jsSplit ' ' s = [mi, ho, da, mo, wd]) :
    parseExpression s = some (classifyFields s mi ho da mo wd) := by
  unfold parseExpression
  rw [h]

theorem parse_none_iff (s : String) :
    parseExpression s = none ↔ (jsSplit ' ' s).length ≠ 5 := by
  unfold parseExpression
  rcases hl : jsSplit ' ' s with _ | ⟨a, _ | ⟨b, _ | ⟨c, _ | ⟨d, _ | ⟨e, _ | ⟨f, t⟩⟩⟩⟩⟩⟩ <;>
    simp

theorem intRepr_natCast (n : Nat) : intRepr (n : Int) = natRepr n := rfl

theorem gen_daily_eq (hr mi : Nat) (hh : hr < 24) (hm : mi < 60)
    (da : Option (List JSNum)) (dy : Option JSNum) (ex : Option String) :
    generateExpression ⟨"daily", some (fmtTime hr mi), da, dy, ex⟩ =
      natRepr mi ++ " " ++ natRepr hr ++ " * * *" := by
  have hf := fmtTimeFacts hr hh mi hm
  have fh := reprFacts hr (by omega)
  have fm := reprFacts mi hm
  simp only [generateExpression, jsOrStr]
  rw [if_neg hf.1, hf.2, if_pos trivial]
  simp [List.map, fh.2.2.2.2.2.2.2.1, fm.2.2.2.2.2.2.2.1, renderOptNum, jsNumRender,
    intRepr_natCast]

theorem gen_monthly_eq (hr mi d : Nat) (hh : hr < 24) (hm : mi < 60) (hd1 : 1 ≤ d)
    (da : Option (List JSNum)) (ex : Option String) :
    generateExpression ⟨"monthly", some (fmtTime hr mi), da, some (some (d : Int)), ex⟩ =
      natRepr mi ++ " " ++ natRepr hr ++ " " ++ natRepr d ++ " * *" := by
  have hf := fmtTimeFacts hr hh mi hm
  have fh := reprFacts hr (by omega)
  have fm := reprFacts mi hm
  have hd0 : ¬((d : Int) = 0) := by omega
  simp only [generateExpression, jsOrStr]
  rw [if_neg hf.1, hf.2]
  simp [List.map, fh.2.2.2.2.2.2.2.1, fm.2.2.2.2.2.2.2.1, renderOptNum, jsNumRender,
    intRepr_natCast, jsOrNum, hd0]

theorem gen_weekly_eq (hr mi : Nat) (hh : hr < 24) (hm : mi < 60) (ks : List Nat)
    (dy : Option JSNum) (ex : Option String) :
    generateExpression
        ⟨"weekly", some (fmtTime hr mi),
          some (ks.map (fun k : Nat => some (k : Int))), dy, ex⟩ =
      natRepr mi ++ " " ++ natRepr hr ++ " * * " ++ joinSep "," (ks.map natRepr) := by
  have hf := fmtTimeFacts hr hh mi hm
  have fh := reprFacts hr (by omega)
  have fm := reprFacts mi hm
  simp only [generateExpression, jsOrStr]
  rw [if_neg hf.1, hf.2]
  simp only [jsJoinNums, jsOrList, Option.getD_some, List.map_map]
  have hjoin : ∀ k ∈ ks, (jsNumRender ∘ fun k : Nat => some (k : Int)) k = natRepr k :=
    fun k _ => rfl
  rw [List.map_congr_left hjoin]
  simp [List.map, fh.2.2.2.2.2.2.2.1, fm.2.2.2.2.2.2.2.1, renderOptNum, jsNumRender,
    intRepr_natCast]

theorem roundtrip_daily (hr mi : Nat) (hh : hr < 24) (hm : mi < 60)
    (da : Option (List JSNum)) (dy : Option JSNum) (ex : Option String) :
    parseExpression (generateExpression ⟨"daily", some (fmtTime hr mi), da, dy, ex⟩) =
      some ⟨"daily", some (fmtTime hr mi), none, none, none⟩ := by
  have fh := reprFacts hr (by omega)
  have fm := reprFacts mi hm
  rw [gen_daily_eq hr mi hh hm da dy ex,
    parse_of_five _ _ _ _ _ _ (jsSplit_shape_daily _ _ fm.1 fh.1)]
  unfold classifyFields
  split_ifs with h1 h2 h3 h4
  · have hmi0 : mi = 0 := fm.2.2.2.2.2.1.mp h1.1
    have hhr0 : hr = 0 := fh.2.2.2.2.2.1.mp h1.2.1
    subst hmi0; subst hhr0
    rfl
  · rfl
  · exact absurd ⟨fm.2.2.2.1, fh.2.2.2.1, rfl, rfl, rfl⟩ h2
  · exact absurd ⟨fm.2.2.2.1, fh.2.2.2.1, rfl, rfl, rfl⟩ h2
  · exact absurd ⟨fm.2.2.2.1, fh.2.2.2.1, rfl, rfl, rfl⟩ h2

theorem roundtrip_monthly (hr mi d : Nat) (hh : hr < 24) (hm : mi < 60)
    (hd1 : 1 ≤ d) (hd31 : d ≤ 31) (da : Option (List JSNum)) (ex : Option String) :
    parseExpression
        (generateExpression ⟨"monthly", some (fmtTime hr mi), da, some (some (d : Int)), ex⟩) =
      some ⟨"monthly", some (fmtTime hr mi), none, some (some (d : Int)), none⟩ := by
  have fh := reprFacts hr (by omega)
  have fm := reprFacts mi hm
  have fd := reprFacts d (by omega)
  rw [gen_monthly_eq hr mi d hh hm hd1 da ex,
    parse_of_five _ _ _ _ _ _ (jsSplit_shape_monthly _ _ _ fm.1 fh.1 fd.1)]
  unfold classifyFields
  split_ifs with h1 h2 h3 h4
  · exact absurd h1.2.2.1 fd.2.2.2.1
  · exact absurd h2.2.2.1 fd.2.2.2.1
  · exact absurd rfl h3.2.2.2.2
  · rw [fd.2.2.2.2.2.2.1]
    rfl
  · exact absurd ⟨fm.2.2.2.1, fh.2.2.2.1, fd.2.2.2.1, rfl, rfl⟩ h4

theorem roundtrip_weekly (hr mi : Nat) (hh : hr < 24) (hm : mi < 60) (ks : List Nat)
    (hne : ks ≠ []) (hks : ∀ k ∈ ks, k ≤ 6) (dy : Option JSNum) (ex : Option String) :
    parseExpression
        (generateExpression
          ⟨"weekly", some (fmtTime hr mi),
            some (ks.map (fun k : Nat => some (k : Int))), dy, ex⟩) =
      some ⟨"weekly", some (fmtTime hr mi),
        some (ks.map (fun k : Nat => some (k : Int))), none, none⟩ := by
  have fh := reprFacts hr (by omega)
  have fm := reprFacts mi hm
  have htok : ∀ t ∈ ks.map natRepr, ' ' ∉ t.data ∧ '*' ∉ t.data ∧ ',' ∉ t.data := by
    intro t ht
    obtain ⟨k, hk, rfl⟩ := List.mem_map.mp ht
    have f := reprFacts k (by have := hks k hk; omega)
    exact ⟨f.1, f.2.1, f.2.2.1⟩
  have hmapne : ks.map natRepr ≠ [] := fun hme => hne (List.map_eq_nil_iff.mp hme)
  have hw_space : ' ' ∉ (joinSep "," (ks.map natRepr)).data :=
    join_not_mem "," ' ' _ (by decide) (fun t ht => (htok t ht).1)
  have hw_star : joinSep "," (ks.map natRepr) ≠ "*" :=
    ne_star _ (join_not_mem "," '*' _ (by decide) (fun t ht => (htok t ht).2.1))
  have hsplit : jsSplit ',' (joinSep "," (ks.map natRepr)) = ks.map natRepr :=
    jsSplit_join _ hmapne (fun t ht => (htok t ht).2.2)
  rw [gen_weekly_eq hr mi hh hm ks dy ex,
    parse_of_five _ _ _ _ _ _ (jsSplit_shape_weekly _ _ _ fm.1 fh.1 hw_space)]
  unfold classifyFields
  split_ifs with h1 h2 h3 h4
  · exact absurd h1.2.2.2.2 hw_star
  · exact absurd h2.2.2.2.2 hw_star
  · rw [hsplit, List.map_map]
    have hpt : ∀ k ∈ ks, (parseIntJS ∘ natRepr) k = (fun k : Nat => some (k : Int)) k := by
      intro k hk
      have f := reprFacts k (by have := hks k hk; omega)
      exact f.2.2.2.2.2.2.1
    rw [List.map_congr_left hpt]
    rfl
  · exact absurd ⟨fm.2.2.2.1, fh.2.2.2.1, rfl, rfl, hw_star⟩ h3
  · exact absurd ⟨fm.2.2.2.1, fh.2.2.2.1, rfl, rfl, hw_star⟩ h3

/-- C1: round-trip through `generateExpression` then `parseExpression`
reproduces the configuration: for every daily config with a valid
zero-padded `HH:MM` time (hour below 24, minute below 60) the round-trip
preserves kind and time; for every monthly config additionally with
`dayOfMonth` in `[1, 31]` it also preserves the day; for every weekly
config with a non-empty weekday list of integers in `[0, 6]` it preserves
kind, time, and the exact order and values of the weekdays. -/
theorem claim_C1_roundtrip :
    (∀ (hr mi : Nat) (c : CronConfig), hr < 24 → mi < 60 → c.type = "daily" →
      c.time = some (fmtTime hr mi) →
      ∃ c₂, parseExpression (generateExpression c) = some c₂ ∧
        c₂.type = c.type ∧ c₂.time = c.time) ∧
    (∀ (hr mi d : Nat) (c : CronConfig), hr < 24 → mi < 60 → 1 ≤ d → d ≤ 31 →
      c.type = "monthly" → c.time = some (fmtTime hr mi) →
      c.day = some (some (d : Int)) →
      ∃ c₂, parseExpression (generateExpression c) = some c₂ ∧
        c₂.type = c.type ∧ c₂.time = c.time ∧ c₂.day = c.day) ∧
    (∀ (hr mi : Nat) (ks : List Nat) (c : CronConfig), hr < 24 → mi < 60 →
      ks ≠ [] → (∀ k ∈ ks, k ≤ 6) → c.type = "weekly" →
      c.time = some (fmtTime hr mi) →
      c.days = some (ks.map (fun k : Nat => some (k : Int))) →
      ∃ c₂, parseExpression (generateExpression c) = some c₂ ∧
        c₂.type = c.type ∧ c₂.time = c.time ∧ c₂.days = c.days) := by
  refine ⟨?_, ?_, ?_⟩
  · intro hr mi c hh hm hty hti
    obtain ⟨ty, ti, da, dy, ex⟩ := c
    dsimp only at hty hti ⊢
    subst hty; subst hti
    exact ⟨_, roundtrip_daily hr mi hh hm da dy ex, rfl, rfl⟩
  · intro hr mi d c hh hm hd1 hd31 hty hti hdy
    obtain ⟨ty, ti, da, dy, ex⟩ := c
    dsimp only at hty hti hdy ⊢
    subst hty; subst hti; subst hdy
    exact ⟨_, roundtrip_monthly hr mi d hh hm hd1 hd31 da ex, rfl, rfl, rfl⟩
  · intro hr mi ks c hh hm hne hks hty hti hdays
    obtain ⟨ty, ti, da, dy, ex⟩ := c
    dsimp only at hty hti hdays ⊢
    subst hty; subst hti; subst hdays
    exact ⟨_, roundtrip_weekly hr mi hh hm ks hne hks dy ex, rfl, rfl, rfl⟩

/-- Witness for C1: the round-trip at concrete daily, monthly and weekly
configurations. -/
theorem claim_C1_roundtrip_witness :
    (∃ c₂, parseExpression
        (generateExpression ⟨"daily", some (fmtTime 9 30), none, none, none⟩) =
        some c₂ ∧ c₂.type = "daily" ∧ c₂.time = some (fmtTime 9 30)) ∧
    (∃ c₂, parseExpression
        (generateExpression
          ⟨"monthly", some (fmtTime 0 0), none, some (some ((15 : Nat) : Int)), none⟩) =
        some c₂ ∧ c₂.type = "monthly" ∧ c₂.time = some (fmtTime 0 0) ∧
        c₂.day = some (some ((15 : Nat) : Int))) ∧
    (∃ c₂, parseExpression
        (generateExpression
          ⟨"weekly", some (fmtTime 9 0),
            some ([1, 3, 5].map (fun k : Nat => some (k : Int))), none, none⟩) =
        some c₂ ∧ c₂.type = "weekly" ∧ c₂.time = some (fmtTime 9 0) ∧
        c₂.days = some ([1, 3, 5].map (fun k : Nat => some (k : Int)))) :=
  ⟨claim_C1_roundtrip.1 9 30 _ (by decide) (by decide) rfl rfl,
   claim_C1_roundtrip.2.1 0 0 15 _ (by decide) (by decide) (by decide) (by decide) rfl rfl rfl,
   claim_C1_roundtrip.2.2 9 0 [1, 3, 5] _ (by decide) (by decide) (by decide)
     (by decide) rfl rfl rfl⟩

/-- C2 counterexample: `"0 0 * *  *"` (two spaces before the last star) has
exactly five whitespace-separated fields yet the parser fails on it, and
`"0 0 * * "` (trailing space) has only four whitespace-separated fields yet
the parser succeeds — the parser's shape check counts parts of a split on
single space characters, not whitespace-separated fields. -/
theorem claim_C2_counterexample :
    ((whitespaceFields "0 0 * *  *").length = 5 ∧
      parseExpression "0 0 * *  *" = none) ∧
    ((whitespaceFields "0 0 * * ").length = 4 ∧
      (parseExpression "0 0 * * ").isSome = true) := by decide

/-- C2 amended: `parseExpression` returns `none` exactly when splitting the
input on the space character does not give exactly five parts (empty parts
counted); every input that splits into exactly five such parts yields a
configuration. -/
theorem claim_C2_amended :
    (∀ s : String, parseExpression s = none ↔ (jsSplit ' ' s).length ≠ 5) ∧
    (∀ s : String, (jsSplit ' ' s).length = 5 → ∃ c, parseExpression s = some c) := by
  refine ⟨parse_none_iff, ?_⟩
  intro s h5
  rcases ho : parseExpression s with _ | c
  · exact absurd ((parse_none_iff s).mp ho) (by simp [h5])
  · exact ⟨c, rfl⟩

/-- Witness for C2 at a concrete five-part input. -/
theorem claim_C2_amended_witness : ∃ c, parseExpression "1 2 3 4 5" = some c :=
  claim_C2_amended.2 "1 2 3 4 5" (by decide)

/-- C3 counterexample: an unrecognized (non-empty, unparsable) time does
not default to `"00:00"`; `generateExpression` on a daily config with time
`"ab"` produces `"undefined NaN * * *"`, not `"0 0 * * *"`. -/
theorem claim_C3_counterexample :
    generateExpression ⟨"daily", some "ab", none, none, none⟩ = "undefined NaN * * *" ∧
    generateExpression ⟨"daily", some "ab", none, none, none⟩ ≠ "0 0 * * *" := by decide

/-- C3 amended: `generateExpression` is total and never reports an error;
a missing or empty time defaults to `"00:00"` (hour 0, minute 0), while a
non-empty unparsable time is propagated through `parseInt`, rendering
`NaN`/`undefined` components instead of defaulting; a missing `dayOfMonth`
defaults to 1, a missing weekdays list is rendered as an empty day-of-week
field, a custom config with absent raw expression yields `"0 0 * * *"`,
and an unrecognized kind yields the literal string `"0 0 * * *"`. -/
theorem claim_C3_amended :
    (∀ c : CronConfig, c.type = "daily" → (c.time = none ∨ c.time = some "") →
      generateExpression c = "0 0 * * *") ∧
    (∀ c : CronConfig, c.type = "monthly" → c.time = none → c.day = none →
      generateExpression c = "0 0 1 * *") ∧
    (∀ c : CronConfig, c.type = "weekly" → c.time = none → c.days = none →
      generateExpression c = "0 0 * * ") ∧
    (∀ c : CronConfig, c.type = "custom" → c.expression = none →
      generateExpression c = "0 0 * * *") ∧
    (∀ c : CronConfig, c.type ≠ "daily" → c.type ≠ "weekly" → c.type ≠ "monthly" →
      c.type ≠ "custom" → generateExpression c = "0 0 * * *") ∧
    generateExpression ⟨"daily", some "ab", none, none, none⟩ = "undefined NaN * * *" := by
  refine ⟨?_, ?_, ?_, ?_, ?_, by decide⟩
  · intro c hty hti
    obtain ⟨ty, ti, da, dy, ex⟩ := c
    dsimp only at hty hti ⊢
    subst hty
    rcases hti with h | h <;> subst h <;> rfl
  · intro c hty hti hdy
    obtain ⟨ty, ti, da, dy, ex⟩ := c
    dsimp only at hty hti hdy ⊢
    subst hty; subst hti; subst hdy
    rfl
  · intro c hty hti hda
    obtain ⟨ty, ti, da, dy, ex⟩ := c
    dsimp only at hty hti hda ⊢
    subst hty; subst hti; subst hda
    rfl
  · intro c hty hex
    obtain ⟨ty, ti, da, dy, ex⟩ := c
    dsimp only at hty hex ⊢
    subst hty; subst hex
    rfl
  · intro c h1 h2 h3 h4
    simp [generateExpression, h1, h2, h3, h4]

/-- Witness for C3: the defaulting behaviour at concrete configurations of
each kind, including an unrecognized kind. -/
theorem claim_C3_amended_witness :
    generateExpression ⟨"daily", none, none, none, none⟩ = "0 0 * * *" ∧
    generateExpression ⟨"monthly", none, none, none, none⟩ = "0 0 1 * *" ∧
    generateExpression ⟨"weekly", none, none, none, none⟩ = "0 0 * * " ∧
    generateExpression ⟨"custom", none, none, none, none⟩ = "0 0 * * *" ∧
    generateExpression ⟨"yearly", none, none, none, none⟩ = "0 0 * * *" :=
  ⟨claim_C3_amended.1 _ rfl (Or.inl rfl),
   claim_C3_amended.2.1 _ rfl rfl rfl,
   claim_C3_amended.2.2.1 _ rfl rfl rfl,
   claim_C3_amended.2.2.2.1 _ rfl rfl,
   claim_C3_amended.2.2.2.2.1 _ (by decide) (by decide) (by decide) (by decide)⟩

/-- C4: for every five-field input with concrete minute and hour, wildcard
day and month, and a concrete weekday field, the parser returns a weekly
config whose time zero-pads the hour and minute tokens joined by `":"` and
whose weekdays are the weekday field split on `","` and parsed as integers
in the order given, with no sorting and no de-duplication; in particular
at `"30 14 * * 1,3,5"`. -/
theorem claim_C4_parse_weekly :
    (∀ (s mi ho wd : String), jsSplit ' ' s = [mi, ho, "*", "*", wd] →
      mi ≠ "*" → ho ≠ "*" → wd ≠ "*" →
      (∀ t ∈ jsSplit ',' wd, t ≠ "" ∧ t.data.all Char.isDigit) →
      parseExpression s =
        some ⟨"weekly", some (padStart2 ho ++ ":" ++ padStart2 mi),
          some ((jsSplit ',' wd).map parseIntJS), none, none⟩) ∧
    parseExpression "30 14 * * 1,3,5" =
      some ⟨"weekly", some "14:30", some [some 1, some 3, some 5], none, none⟩ := by
  refine ⟨?_, by decide⟩
  intro s mi ho wd hsplit hmi hho hwd htok
  rw [parse_of_five _ _ _ _ _ _ hsplit]
  unfold classifyFields
  split_ifs with h1 h2 h3 h4
  · exact absurd h1.2.2.2.2 hwd
  · exact absurd h2.2.2.2.2 hwd
  · rfl
  · exact absurd ⟨hmi, hho, rfl, rfl, hwd⟩ h3
  · exact absurd ⟨hmi, hho, rfl, rfl, hwd⟩ h3

/-- Witness for C4 at the concrete input `"30 14 * * 1,3,5"`. -/
theorem claim_C4_parse_weekly_witness :
    parseExpression "30 14 * * 1,3,5" =
      some ⟨"weekly", some (padStart2 "14" ++ ":" ++ padStart2 "30"),
        some ((jsSplit ',' "1,3,5").map parseIntJS), none, none⟩ :=
  claim_C4_parse_weekly.1 "30 14 * * 1,3,5" "30" "14" "1,3,5" (by decide)
    (by decide) (by decide) (by decide) (by decide)

theorem classify_merged_eq (cron mi ho da mo wd : String) :
    classifyFieldsMerged cron mi ho da mo wd = classifyFields cron mi ho da mo wd := by
  unfold classifyFields classifyFieldsMerged
  by_cases h1 : mi = "0" ∧ ho = "0" ∧ da = "*" ∧ mo = "*" ∧ wd = "*"
  · obtain ⟨e1, e2, e3, e4, e5⟩ := h1
    subst e1; subst e2; subst e3; subst e4; subst e5
    rfl
  · rw [if_neg h1]

/-- C8: the special-case first rule of `parseExpression` (exact input
`0 0 * * *` mapped to daily at `00:00`) is redundant: the variant parser
with that branch removed is extensionally equal to `parseExpression` on
every input. -/
theorem claim_C8_merged_equal :
    ∀ s : String, parseExpressionMerged s = parseExpression s := by
  intro s
  unfold parseExpression parseExpressionMerged
  rcases hl : jsSplit ' ' s with _ | ⟨a, _ | ⟨b, _ | ⟨c, _ | ⟨d, _ | ⟨e, _ | ⟨f, t⟩⟩⟩⟩⟩⟩ <;>
    simp [classify_merged_eq]

/-- Witness for C8 at the special-cased input itself. -/
theorem claim_C8_merged_equal_witness :
    parseExpressionMerged "0 0 * * *" = parseExpression "0 0 * * *" :=
  claim_C8_merged_equal "0 0 * * *"

/-- C9: the parser's daily branch performs no numeric validation — any
five-field input with non-`*` minute and hour tokens and wildcard day,
month and weekday yields a daily config whose time is the raw hour token
padded to two characters, `":"`, then the raw minute token padded to two
characters; in particular `"ab cd * * *"` gives time `"cd:ab"`. -/
theorem claim_C9_daily_no_validation :
    (∀ (s mi ho : String), jsSplit ' ' s = [mi, ho, "*", "*", "*"] →
      mi ≠ "*" → ho ≠ "*" →
      parseExpression s =
        some ⟨"daily", some (padStart2 ho ++ ":" ++ padStart2 mi),
          none, none, none⟩) ∧
    parseExpression "ab cd * * *" =
      some ⟨"daily", some "cd:ab", none, none, none⟩ := by
  refine ⟨?_, by decide⟩
  intro s mi ho hsplit hmi hho
  rw [parse_of_five _ _ _ _ _ _ hsplit]
  unfold classifyFields
  split_ifs with h1 h2 h3 h4
  · obtain ⟨e1, e2, -⟩ := h1
    subst e1; subst e2
    decide
  · rfl
  · exact absurd ⟨hmi, hho, rfl, rfl, rfl⟩ h2
  · exact absurd ⟨hmi, hho, rfl, rfl, rfl⟩ h2
  · exact absurd ⟨hmi, hho, rfl, rfl, rfl⟩ h2

/-- Witness for C9 at the concrete input `"ab cd * * *"`. -/
theorem claim_C9_daily_no_validation_witness :
    parseExpression "ab cd * * *" =
      some ⟨"daily", some (padStart2 "cd" ++ ":" ++ padStart2 "ab"), none, none, none⟩ :=
  claim_C9_daily_no_validation.1 "ab cd * * *" "ab" "cd" (by decide) (by decide)
    (by decide)

theorem humanReadable_some (s : String) (cfg : CronConfig)
    (h : parseExpression s = some cfg) :
    humanReadable s ≠ "Invalid cron expression" := by
  unfold humanReadable
  rw [h]
  dsimp only
  split_ifs with h1 h2 h3 h4
  · exact ne_of_head _ _ 'D' 'I' (append_head _ _ _ rfl) rfl (by decide)
  · exact ne_of_head _ _ 'W' 'I'
      (append_head _ _ _ (append_head _ _ _ (append_head _ _ _ rfl))) rfl (by decide)
  · exact ne_of_head _ _ 'M' 'I'
      (append_head _ _ _ (append_head _ _ _ (append_head _ _ _ (append_head _ _ _ rfl))))
      rfl (by decide)
  · exact ne_of_head _ _ 'C' 'I' (append_head _ _ _ rfl) rfl (by decide)
  · decide

/-- C5: `humanReadable` returns exactly `"Invalid cron expression"` if and
only if `parseExpression` fails on its input, i.e. exactly when the input
does not split into five fields; in particular at `"not a cron"`. -/
theorem claim_C5_invalid :
    (∀ s : String,
      humanReadable s = "Invalid cron expression" ↔ parseExpression s = none) ∧
    (∀ s : String,
      humanReadable s = "Invalid cron expression" ↔ (jsSplit ' ' s).length ≠ 5) ∧
    humanReadable "not a cron" = "Invalid cron expression" := by
  have p1 : ∀ s : String,
      humanReadable s = "Invalid cron expression" ↔ parseExpression s = none := by
    intro s
    constructor
    · intro hh
      rcases ho : parseExpression s with _ | c
      · rfl
      · exact absurd hh (humanReadable_some s c ho)
    · intro hn
      unfold humanReadable
      rw [hn]
  exact ⟨p1, fun s => (p1 s).trans (parse_none_iff s), by decide⟩

/-- Witness for C5 at a concrete failing input. -/
theorem claim_C5_invalid_witness : humanReadable "x" = "Invalid cron expression" :=
  (claim_C5_invalid.1 "x").mpr (by decide)

theorem jsIndex_dayNames : ∀ k : Nat, k < 7 →
    jsIndex dayNames (some (k : Int)) = some (dayNames.getD k "") := by decide

/-- C6: for every input that parses as weekly with weekday entries in
`[0, 6]`, `humanReadable` renders `"Weekly on {names} at {time}"`, the
names drawn from the ordered array of day names indexed by each entry, in
the order the weekday list gives them, joined by `", "`; in particular at
`"0 9 * * 1,3,5"`. -/
theorem claim_C6_weekly_names :
    (∀ (s t : String) (cfg : CronConfig) (ks : List Nat),
      parseExpression s = some cfg → cfg.type = "weekly" →
      cfg.days = some (ks.map (fun k : Nat => some (k : Int))) →
      cfg.time = some t → (∀ k ∈ ks, k < 7) →
      humanReadable s =
        "Weekly on " ++ joinSep ", " (ks.map (fun k => dayNames.getD k "")) ++
          " at " ++ t) ∧
    humanReadable "0 9 * * 1,3,5" = "Weekly on Monday, Wednesday, Friday at 09:00" := by
  refine ⟨?_, by decide⟩
  intro s t cfg ks hp hty hdays htime hks
  unfold humanReadable
  rw [hp]
  dsimp only
  rw [hty, hdays, htime]
  rw [if_neg (by decide : ¬(("weekly" : String) = "daily")),
    if_pos (rfl : ("weekly" : String) = "weekly")]
  simp only [jsOrList, Option.getD_some, List.map_map, renderOptStr]
  have hpt : ∀ k ∈ ks, (jsIndex dayNames ∘ fun k : Nat => some (k : Int)) k =
      some (dayNames.getD k "") := fun k hk => jsIndex_dayNames k (hks k hk)
  rw [List.map_congr_left hpt]
  simp only [jsJoinOptStr, List.map_map]
  have hgd : ∀ k ∈ ks, ((fun o : Option String => o.getD "") ∘
      fun k : Nat => some (dayNames.getD k "")) k =
      (fun k : Nat => dayNames.getD k "") k := fun k _ => rfl
  rw [List.map_congr_left hgd]

/-- Witness for C6 at the concrete input `"0 9 * * 1,3,5"`. -/
theorem claim_C6_weekly_names_witness :
    humanReadable "0 9 * * 1,3,5" =
      "Weekly on " ++
        joinSep ", " ([1, 3, 5].map (fun k => dayNames.getD k "")) ++
        " at " ++ "09:00" :=
  claim_C6_weekly_names.1 "0 9 * * 1,3,5" "09:00"
    ⟨"weekly", some "09:00", some ([1, 3, 5].map (fun k : Nat => some (k : Int))),
      none, none⟩
    [1, 3, 5] (by decide) rfl rfl rfl (by decide)

/-- C7: the ordinal suffix of the monthly rendering is `"st"` exactly for
day 1, `"nd"` exactly for 2, `"rd"` exactly for 3, and `"th"` for every
other value including 11, 12, 13, 21 and 31 — so day 21 renders as
`"21th"`; in particular `humanReadable "0 0 15 * *"` is
`"Monthly on the 15th at 00:00"`. -/
theorem claim_C7_ordinal :
    (∀ n : Int,
      (ordinalSuffix (some (some n)) = "st" ↔ n = 1) ∧
      (ordinalSuffix (some (some n)) = "nd" ↔ n = 2) ∧
      (ordinalSuffix (some (some n)) = "rd" ↔ n = 3) ∧
      (n ≠ 1 → n ≠ 2 → n ≠ 3 → ordinalSuffix (some (some n)) = "th")) ∧
    ordinalSuffix (some (some 11)) = "th" ∧ ordinalSuffix (some (some 12)) = "th" ∧
    ordinalSuffix (some (some 13)) = "th" ∧ ordinalSuffix (some (some 21)) = "th" ∧
    ordinalSuffix (some (some 31)) = "th" ∧
    humanReadable "0 0 21 * *" = "Monthly on the 21th at 00:00" ∧
    humanReadable "0 0 15 * *" = "Monthly on the 15th at 00:00" := by
  refine ⟨?_, by decide, by decide, by decide, by decide, by decide, by decide, by decide⟩
  intro n
  by_cases h1 : n = 1
  · subst h1; decide
  · by_cases h2 : n = 2
    · subst h2; decide
    · by_cases h3 : n = 3
      · subst h3; decide
      · simp [ordinalSuffix, h1, h2, h3]

/-- Witness for C7: the theorem applied at day 21 yields the `"th"` suffix. -/
theorem claim_C7_ordinal_witness : ordinalSuffix (some (some 21)) = "th" :=
  (claim_C7_ordinal.1 21).2.2.2 (by decide) (by decide) (by decide)

/-- C10: the weekly rendering's lookup of a weekday entry in the
seven-element day-name array succeeds precisely when the entry is an
integer in `[0, 6]`; the input `"0 9 * * 7"` parses to a weekly config with
entry 7, whose lookup is out of range, so no day name is rendered. -/
theorem claim_C10_index_bounds :
    (∀ d : JSNum, (jsIndex dayNames d).isSome = true ↔
      ∃ k : Int, d = some k ∧ 0 ≤ k ∧ k < 7) ∧
    parseExpression "0 9 * * 7" =
      some ⟨"weekly", some "09:00", some [some 7], none, none⟩ ∧
    jsIndex dayNames (some 7) = none ∧
    humanReadable "0 9 * * 7" = "Weekly on  at 09:00" := by
  refine ⟨?_, by decide, by decide, by decide⟩
  intro d
  rcases d with _ | k
  · simp [jsIndex]
  · simp only [jsIndex]
    by_cases hk : 0 ≤ k
    · rw [if_pos hk]
      constructor
      · intro hs
        refine ⟨k, rfl, hk, ?_⟩
        by_contra hk7
        have h7 : dayNames.length ≤ k.toNat := by
          have : dayNames.length = 7 := rfl
          omega
        rw [List.getElem?_eq_none h7] at hs
        simp at hs
      · rintro ⟨k2, hke, hk0, hk7⟩
        have hkk : k2 = k := (Option.some.inj hke).symm
        have h7 : k.toNat < dayNames.length := by
          have hlen : dayNames.length = 7 := rfl
          omega
        rw [List.getElem?_eq_getElem h7]
        rfl
    · rw [if_neg hk]
      simp only [Option.isSome_none, Bool.false_eq_true, false_iff]
      rintro ⟨k2, hke, hk0, -⟩
      have hkk : k2 = k := (Option.some.inj hke).symm
      exact hk (hkk ▸ hk0)

/-- Witness for C10: an in-range entry succeeds, as the bound predicts. -/
theorem claim_C10_index_bounds_witness :
    (jsIndex dayNames (some 3)).isSome = true :=
  (claim_C10_index_bounds.1 (some 3)).mpr ⟨3, rfl, by decide, by decide⟩

end AceCron
